import Mathlib

/-!
# Verification of the auction settlement core

Shallow embedding of the settlement pipeline of the auction marketplace
(controllers `bidController.js`, `auctionController.js` (which also contains
`escrowController.js`), `deliveryConfirmationController.js`, the dispute and
payment controllers).  The embedding models a single auction together with the
user accounts, bids, escrow, delivery confirmation, disputes and ledger that
refer to it; token amounts are rationals (the source uses JS numbers with
fractional fees and penalties), timestamps are integers (milliseconds).

MongoDB session semantics are made explicit: a write performed through the
session is only visible after `commitTransaction`, while a write performed
*without* the session persists immediately, even when the surrounding
transaction later aborts.  Several callees in the source (`setWinningBid`,
`createEscrow`, `createConfirmation`) take no session parameter and hence
write directly; the embedding reproduces this.
-/

/- Batteries marks rational arithmetic `@[irreducible]`; the concrete
settlement computations below are checked by kernel reduction, so restore
unfolding for them in this file. -/
attribute [local semireducible] Rat.add Rat.sub Rat.mul Rat.inv

namespace Backdoor

abbrev UserId := Nat

/-- A user account: available balance and escrowed balance (`userModel`). -/
structure Account where
  balance : ℚ
  escrowedBalance : ℚ
deriving DecidableEq, Repr

/-- Bid status as used by `bidController.js` (`pending` on create, `active`
after finalization). -/
inductive BidStatus where
  | pending
  | active
deriving DecidableEq, Repr

/-- A bid record (`bidModel`). -/
structure Bid where
  bidder : UserId
  amount : ℚ
  createdAt : ℤ
  status : BidStatus
  isWinningBid : Bool
  isRetracted : Bool
  retractionPenalty : ℚ
  flaggedForReview : Bool
deriving DecidableEq, Repr

/-- Escrow states written by the source.  (`RESOLVED` is never written by any
code path of the repository; the escrow state space of the code is exactly
these four values.) -/
inductive EscrowStatus where
  | HELD
  | RELEASED
  | REFUNDED
  | DISPUTED
deriving DecidableEq, Repr

/-- An escrow record (`escrowModel`), 1:1 with the auction. -/
structure Escrow where
  buyer : UserId
  vendor : UserId
  tokenAmount : ℚ
  status : EscrowStatus
deriving DecidableEq, Repr

/-- Delivery confirmation states (`deliveryConfirmationModel`). -/
inductive ConfStatus where
  | PENDING_SHIPMENT
  | PENDING_DELIVERY
  | SHIPPED
  | DELIVERED
  | DISPUTED
  | CANCELLED
deriving DecidableEq, Repr

/-- A delivery confirmation record, 1:1 with the auction. -/
structure DeliveryConfirmation where
  vendor : UserId
  buyer : UserId
  status : ConfStatus
  deliveredAt : Option ℤ
deriving DecidableEq, Repr

/-- Dispute states (`disputeModel`). -/
inductive DisputeStatus where
  | OPEN
  | UNDER_REVIEW
  | RESOLVED
deriving DecidableEq, Repr

/-- A dispute record. -/
structure Dispute where
  raisedBy : UserId
  against : UserId
  status : DisputeStatus
deriving DecidableEq, Repr

/-- Ledger entry kinds appearing in the settlement pipeline
(`tokentransactionModel`). -/
inductive TxType where
  | ESCROW_HOLD
  | PAYOUT_VENDOR
  | PLATFORM_FEE
  | ESCROW_REFUND
  | DISPUTE_PARTIAL_REFUND
  | DISPUTE_PARTIAL_PAYOUT
deriving DecidableEq, Repr

/-- Ledger entry status. -/
inductive TxStatus where
  | PENDING
  | SUCCESS
  | FAILED
deriving DecidableEq, Repr

/-- A ledger entry (`TokenTransaction`); all entries in the model are linked
to the single modelled auction. -/
structure Tx where
  user : UserId
  txType : TxType
  amount : ℚ
  status : TxStatus
deriving DecidableEq, Repr

/-- The auction record (`auctionModel`).  `winningBidAmount = 0` models the
field being unset (the source tests it with JS falsiness: `!auction.winningBidAmount`). -/
structure Auction where
  vendor : UserId
  highestBidder : Option UserId
  startingPrice : ℚ
  currentPrice : ℚ
  bidCount : Nat
  endTime : ℤ
  isActive : Bool
  isDigital : Bool
  winningBidAmount : ℚ
  winnerConfirmed : Bool
  vendorPaid : Bool
  endedAt : Option ℤ
deriving DecidableEq, Repr

/-- The persistent store restricted to one auction: the accounts, the
auction, its bids (by index, standing in for bid ids), its escrow (1:1),
its delivery confirmation (1:1), its disputes and the ledger. -/
structure DB where
  users : UserId → Account
  auction : Auction
  bids : List Bid
  escrow : Option Escrow
  confirmation : Option DeliveryConfirmation
  disputes : List Dispute
  ledger : List Tx

/-- Errors surfaced by the controllers (the source returns HTTP statuses with
message strings; the embedding distinguishes them by kind). -/
inductive Err where
  | biddingClosed
  | lowBid
  | insufficientBalance
  | rateLimited
  | bidNotFound
  | notYourBid
  | afterAuctionEnd
  | alreadyClosed
  | notEnded
  | invalidEscrowState
  | noActiveEscrow
  | nothingToConfirm
  | notParty
  | windowClosed
  | notWinner
  | dbError
deriving DecidableEq, Repr

/-- JavaScript `Math.max` on two numbers (kept explicit so that kernel
reduction on concrete rationals goes through). -/
def jsMax (a b : ℚ) : ℚ := if a < b then b else a

/-- Point update of the account map (`user.save()` / `findByIdAndUpdate`). -/
def updUser (us : UserId → Account) (i : UserId) (a : Account) : UserId → Account :=
  fun j => if j = i then a else us j

/-- `User.findByIdAndUpdate(id, {$inc: {balance: amt}})`. -/
def creditBalance (us : UserId → Account) (i : UserId) (amt : ℚ) : UserId → Account :=
  updUser us i ⟨(us i).balance + amt, (us i).escrowedBalance⟩

/-- Settlement constants of the source: 5% minimum bid increment
(`FRAUD_RULES.MIN_BID_INCREASE`). -/
def minBidIncrease : ℚ := 5 / 100

/-- 5-second bid cooldown in milliseconds (`FRAUD_RULES.TOO_FAST_BIDS`). -/
def tooFastBidsMs : ℤ := 5000

/-- 30-second anti-sniping window in milliseconds (`ANTI_SNIPING_EXTENSION`). -/
def antiSnipeMs : ℤ := 30000

/-- 10% platform fee rate (literal `0.1` at every release site). -/
def feeRate : ℚ := 1 / 10

/-- Dispute window: `DISPUTE_WINDOW_DAYS = 7`, as milliseconds.  The source
adds 7 calendar days via `setDate`; the model uses 7 × 86400000 ms. -/
def disputeWindowMs : ℤ := 7 * 86400000

/-! ## Bid Engine (`bidController.js`) -/

/-- `escrowBidTokens(bid)`: move `bid.amount` from the bidder's available
balance into the escrowed balance (a direct `user.save()`, no session). -/
def escrowBidTokens (us : UserId → Account) (bidder : UserId) (amount : ℚ) :
    UserId → Account :=
  updUser us bidder
    ⟨(us bidder).balance - amount, (us bidder).escrowedBalance + amount⟩

/-- `Bid.findOne({bidder, auction}).sort({createdAt: -1})`: the most recent
`createdAt` among this bidder's bids on the auction. -/
def lastBidTime (bids : List Bid) (bidder : UserId) : Option ℤ :=
  (bids.filter (fun b => b.bidder = bidder)).foldl
    (fun acc b => match acc with
      | none => some b.createdAt
      | some t => some (max t b.createdAt)) none

/-- The anti-sniping extension and auction update of `finalizeBidPlacement`
(runs inside the finalization transaction). -/
def finalizeAuction (a : Auction) (now : ℤ) (bidder : UserId) (amount : ℚ) :
    Auction :=
  let a1 := if a.endTime - now < antiSnipeMs then
              { a with endTime := now + antiSnipeMs } else a
  { a1 with currentPrice := amount,
            highestBidder := some bidder,
            bidCount := a1.bidCount + 1 }

/-- `placeBid(req, res)`.  Validations first (no state change on failure);
then the bid is created and the balance debited *outside* any transaction;
`finalizeBidPlacement` runs in a transaction whose failure is injected via
`finalizeFails` (the `catch` block then deletes the bid via
`Bid.findByIdAndDelete` but restores nothing else).  `flaggedForReview`
compares against the undefined `FRAUD_RULES.SUSPICIOUS_JUMP_MULTIPLIER`
(`amount > currentPrice * undefined` is `false` in JS), so it is `false`.
Returns the final persisted state and `none` on success. -/
def placeBid (db : DB) (now : ℤ) (userId : UserId) (amount : ℚ)
    (finalizeFails : Bool) : DB × Option Err :=
  if ¬db.auction.isActive ∨ now > db.auction.endTime then
    (db, some .biddingClosed)
  else if amount < db.auction.currentPrice * (1 + minBidIncrease) then
    (db, some .lowBid)
  else if (db.users userId).balance < amount then
    (db, some .insufficientBalance)
  else if (match lastBidTime db.bids userId with
           | some t => decide (now - t < tooFastBidsMs)
           | none => false) = true then
    (db, some .rateLimited)
  else
    -- Bid.create (direct write), then escrowBidTokens (direct write)
    let newBid : Bid :=
      ⟨userId, amount, now, .pending, false, false, 0, false⟩
    let us1 := escrowBidTokens db.users userId amount
    if finalizeFails then
      -- transaction aborted; catch deletes the bid, the debit persists
      ({ db with users := us1 }, some .dbError)
    else
      ({ db with
          users := us1,
          bids := db.bids ++ [{ newBid with status := .active }],
          auction := finalizeAuction db.auction now userId amount }, none)

/-- `Bid.findOne({auction, isRetracted: false}).sort({amount: -1})`: the
highest non-retracted bid, used by `retractBid` to recompute the price. -/
def highestNonRetracted (bids : List Bid) : Option Bid :=
  (bids.filter (fun b => b.isRetracted = false)).foldl
    (fun acc b => match acc with
      | none => some b
      | some c => if b.amount > c.amount then some b else some c) none

/-- `retractBid(req, res)`: bidder-only, only before `endTime`.  Penalty
`Math.max(amount * 0.1, 0.5)`; the bid is marked retracted, the user's
*available* balance is credited `amount - penalty` (the escrowed balance is
not touched by the source), and if the retracted bid was the highest the
auction price/highest-bidder are recomputed over non-retracted bids. -/
def retractBid (db : DB) (now : ℤ) (caller : UserId) (bidId : Nat) :
    DB × Option Err :=
  match db.bids.get? bidId with
  | none => (db, some .bidNotFound)
  | some bid =>
    if bid.bidder ≠ caller then (db, some .notYourBid)
    else if now > db.auction.endTime then (db, some .afterAuctionEnd)
    else
      let penalty := jsMax (bid.amount * (1 / 10)) (1 / 2)
      let bids1 := db.bids.set bidId
        { bid with isRetracted := true, retractionPenalty := penalty }
      let us1 := creditBalance db.users bid.bidder (bid.amount - penalty)
      let a1 :=
        if db.auction.highestBidder = some bid.bidder then
          match highestNonRetracted bids1 with
          | some nb => { db.auction with currentPrice := nb.amount,
                                          highestBidder := some nb.bidder }
          | none => { db.auction with currentPrice := db.auction.startingPrice,
                                       highestBidder := none }
        else db.auction
      ({ db with bids := bids1, users := us1, auction := a1 }, none)

/-- `Bid.findOne({auction}).sort({amount: -1})`: index and record of the
highest-amount bid, with **no** filter on status or `isRetracted` (ties:
first record, the sort order on equal amounts being unspecified in the
source). -/
def bestBid : List Bid → Option (Nat × Bid)
  | [] => none
  | b :: rest =>
    match bestBid rest with
    | none => some (0, b)
    | some (i, c) =>
      if c.amount > b.amount then some (i + 1, c) else some (0, b)

/-- `Bid.updateMany({auction}, {$set: {isWinningBid: false}})` followed by
setting index `i` as the winner. -/
def markWinner (l : List Bid) (i : Nat) : List Bid :=
  l.enum.map (fun p =>
    if p.1 = i then { p.2 with isWinningBid := true }
    else { p.2 with isWinningBid := false })

/-- `setWinningBid(auctionId)`: pick the highest bid over *all* bids of the
auction, mark every bid non-winning, then mark that one winning.  Returns the
winning bid (as the source returns the saved document). -/
def setWinningBid (db : DB) : DB × Option Bid :=
  match bestBid db.bids with
  | none => (db, none)
  | some (i, b) =>
    ({ db with bids := markWinner db.bids i },
     some { b with isWinningBid := true })

/-! ## Escrow Manager (`escrowController.js`, inlined in
`auctionController.js`) -/

/-- `createEscrow(auctionId)`: the callee takes no session parameter, so it
re-reads the *persisted* auction and writes directly.  Fails when the
persisted auction has no `highestBidder` or a falsy `winningBidAmount`;
otherwise creates a HELD escrow for the persisted `winningBidAmount` and an
`ESCROW_HOLD` SUCCESS ledger entry. -/
def createEscrow (db : DB) : Except Err DB :=
  match db.auction.highestBidder with
  | none => .error .invalidEscrowState
  | some hb =>
    if db.auction.winningBidAmount = 0 then .error .invalidEscrowState
    else
      .ok { db with
        escrow := some ⟨hb, db.auction.vendor, db.auction.winningBidAmount, .HELD⟩,
        ledger := db.ledger ++
          [⟨hb, .ESCROW_HOLD, db.auction.winningBidAmount, .SUCCESS⟩] }

/-- `releaseToVendor(auctionId)`: `Escrow.findOne({auction, status:'HELD'})`
— only a HELD escrow matches; otherwise it throws with no state change.
On a HELD escrow: status → RELEASED, vendor credited `tokenAmount - fee`,
`PAYOUT_VENDOR` and `PLATFORM_FEE` SUCCESS entries appended. -/
def releaseToVendor (db : DB) : DB × Option Err :=
  match db.escrow with
  | some e =>
    if e.status = .HELD then
      let platformFee := e.tokenAmount * feeRate
      let vendorAmount := e.tokenAmount - platformFee
      ({ db with
          escrow := some { e with status := .RELEASED },
          users := creditBalance db.users e.vendor vendorAmount,
          ledger := db.ledger ++
            [⟨e.vendor, .PAYOUT_VENDOR, vendorAmount, .SUCCESS⟩,
             ⟨e.vendor, .PLATFORM_FEE, platformFee, .SUCCESS⟩] }, none)
    else (db, some .noActiveEscrow)
  | none => (db, some .noActiveEscrow)

/-- `refundToBuyer(auctionId, reason)`: same HELD-only lookup; on a HELD
escrow: status → REFUNDED, buyer credited the full `tokenAmount`, an
`ESCROW_REFUND` SUCCESS entry appended. -/
def refundToBuyer (db : DB) : DB × Option Err :=
  match db.escrow with
  | some e =>
    if e.status = .HELD then
      ({ db with
          escrow := some { e with status := .REFUNDED },
          users := creditBalance db.users e.buyer e.tokenAmount,
          ledger := db.ledger ++
            [⟨e.buyer, .ESCROW_REFUND, e.tokenAmount, .SUCCESS⟩] }, none)
    else (db, some .noActiveEscrow)
  | none => (db, some .noActiveEscrow)

/-- `releaseEscrow(auctionId, session)`: the session-taking variant used by
`confirmDelivery`; identical money movement to `releaseToVendor`, expressed
as `Except` because it runs inside the caller's transaction (its caller
aborts everything when it throws). -/
def releaseEscrow (db : DB) : Except Err DB :=
  match db.escrow with
  | some e =>
    if e.status = .HELD then
      let platformFee := e.tokenAmount * feeRate
      let vendorAmount := e.tokenAmount - platformFee
      .ok { db with
        escrow := some { e with status := .RELEASED },
        users := creditBalance db.users e.vendor vendorAmount,
        ledger := db.ledger ++
          [⟨e.vendor, .PAYOUT_VENDOR, vendorAmount, .SUCCESS⟩,
           ⟨e.vendor, .PLATFORM_FEE, platformFee, .SUCCESS⟩] }
    else .error .noActiveEscrow
  | none => .error .noActiveEscrow

/-! ## Auction close (`auctionController.js`, `closeAuction`)

The handler opens a session.  The `auction.save({session})` and the
`PLATFORM_FEE` `TokenTransaction.create([..], {session})` go through the
session, as does `refundLosingBids(auctionId, session)`; but
`setWinningBid`, `createEscrow` and `createConfirmation` are called with a
session argument their definitions do not declare, so every write they make
is immediate and survives `abortTransaction`. -/

/-- Failure injection point inside step 4 of `closeAuction`. -/
inductive CloseStep where
  | winStep
  | escrowStep
  | refundStep
  | confirmStep
  | feeStep
deriving DecidableEq, Repr

/-- Modelled from the spec: `refundLosingBids` lives in
`tokenTransactionController.js`, which is not part of the provided source;
the spec says it refunds "every other active non-retracted bidder's escrowed
balance back to available balance".  It is given the session, so the model
treats its writes as transactional (applied only on commit). -/
def refundLosingBids (db : DB) : DB :=
  let us1 :=
    db.bids.foldl
      (fun us b =>
        if b.isWinningBid = false ∧ b.isRetracted = false ∧
            b.status = .active then
          updUser us b.bidder
            ⟨(us b.bidder).balance + b.amount,
             (us b.bidder).escrowedBalance - b.amount⟩
        else us)
      db.users
  { db with users := us1 }

/-- `createConfirmation(auctionId)`: no session parameter — a direct write.
Returns `null` (no record) when the persisted auction has no highest bidder;
otherwise creates the 1:1 confirmation in `PENDING_DELIVERY` (digital) or
`PENDING_SHIPMENT`. -/
def createConfirmation (db : DB) : DB :=
  match db.auction.highestBidder with
  | none => db
  | some hb =>
    let st : ConfStatus :=
      if db.auction.isDigital then .PENDING_DELIVERY else .PENDING_SHIPMENT
    { db with confirmation := some ⟨db.auction.vendor, hb, st, none⟩ }

/-- `closeAuction(req, res)`.  Early rejections leave the state unchanged.
With a highest bidder, steps run in order; a step at `failAt` throws before
performing its own writes, after which `abortTransaction` discards the
session-scoped writes (the losing-bid refunds, the fee entry and the
`auction.save` that would flip `isActive`) while the direct writes of the
earlier steps remain.  Note that `createEscrow` reads the *persisted*
`winningBidAmount` (its lookup is sessionless), not the in-memory value set
from the winning bid; the in-memory value is used for the fee and persisted
by the final `auction.save`. -/
def closeAuction (db : DB) (now : ℤ) (force : Bool)
    (failAt : Option CloseStep) : DB × Option Err :=
  if ¬db.auction.isActive then (db, some .alreadyClosed)
  else if now < db.auction.endTime ∧ ¬force then (db, some .notEnded)
  else
    match db.auction.highestBidder with
    | none =>
      -- no winner: only the session-scoped auction.save, committed
      ({ db with auction :=
          { db.auction with isActive := false, endedAt := some now } }, none)
    | some _hb =>
      if failAt = some .winStep then (db, some .dbError)
      else
        let sw := setWinningBid db
        match sw.2 with
        | none => (sw.1, some .dbError)  -- winningBid null: .amount throws
        | some wb =>
          let db1 := sw.1
          -- in-memory: auction.winningBidAmount = wb.amount (not yet saved)
          if failAt = some .escrowStep then (db1, some .dbError)
          else
            match createEscrow db1 with
            | .error e => (db1, some e)
            | .ok db2 =>
              if failAt = some .refundStep then (db2, some .dbError)
              else if failAt = some .confirmStep then (db2, some .dbError)
              else
                let db3 := createConfirmation db2
                if failAt = some .feeStep then (db3, some .dbError)
                else
                  -- commit: session writes become visible
                  let db4 := refundLosingBids db3
                  let fee := wb.amount * feeRate
                  ({ db4 with
                      ledger := db4.ledger ++
                        [⟨db4.auction.vendor, .PLATFORM_FEE, fee, .PENDING⟩],
                      auction := { db4.auction with
                        isActive := false, endedAt := some now,
                        winningBidAmount := wb.amount } }, none)

/-- `confirmReceipt(req, res)`: winner-only; sets `winnerConfirmed` and
`vendorPaid` and credits the vendor `winningBidAmount * 0.9` directly — no
escrow, confirmation or ledger interaction, and no guard against repetition. -/
def confirmReceipt (db : DB) (caller : UserId) : DB × Option Err :=
  match db.auction.highestBidder with
  | none => (db, some .notWinner)
  | some hb =>
    if hb ≠ caller then (db, some .notWinner)
    else
      ({ db with
          auction := { db.auction with winnerConfirmed := true,
                                        vendorPaid := true },
          users := creditBalance db.users db.auction.vendor
                     (db.auction.winningBidAmount * (9 / 10)) }, none)

/-! ## Delivery Confirmation Tracker (`deliveryConfirmationController.js`) -/

/-- `TokenTransaction.updateOne({linkedAuction, type:'PLATFORM_FEE',
status:'PENDING'}, {status:'SUCCESS'})`: flip the first matching entry. -/
def flipFirstPendingFee : List Tx → List Tx
  | [] => []
  | t :: rest =>
    if t.txType = .PLATFORM_FEE ∧ t.status = .PENDING then
      { t with status := .SUCCESS } :: rest
    else t :: flipFirstPendingFee rest

/-- `confirmDelivery(req, res)`: buyer-only, requires the confirmation in
`SHIPPED` or `PENDING_DELIVERY`.  Inside one transaction: confirmation →
`DELIVERED` (stamping `deliveredAt`), `releaseEscrow`, then the pending
platform-fee entry is flipped to SUCCESS.  Any throw aborts the whole
transaction, leaving the state unchanged. -/
def confirmDelivery (db : DB) (now : ℤ) (caller : UserId) : DB × Option Err :=
  match db.confirmation with
  | none => (db, some .nothingToConfirm)
  | some c =>
    if c.buyer = caller ∧ (c.status = .SHIPPED ∨ c.status = .PENDING_DELIVERY) then
      let c1 := some { c with status := .DELIVERED, deliveredAt := some now }
      let db1 := { db with confirmation := c1 }
      match releaseEscrow db1 with
      | .error e => (db, some e)
      | .ok db2 =>
        ({ db2 with ledger := flipFirstPendingFee db2.ledger }, none)
    else (db, some .nothingToConfirm)

/-! ## Dispute Resolver (`disputeController.js`) -/

/-- The buyer dispute-window test of `raiseDispute`: with a delivered
confirmation, the deadline is `deliveredAt` plus the 7-day window and the
dispute is rejected when `now` is strictly past it; with no delivery (or no
confirmation record) there is no restriction. -/
def buyerWindowClosed (db : DB) (now : ℤ) : Bool :=
  match db.confirmation with
  | some c =>
    match c.deliveredAt with
    | some d => decide (now > d + disputeWindowMs)
    | none => false
  | none => false

/-- `raiseDispute(req, res)`: requires the caller to be a party (the highest
bidder — "buyer" — or the vendor), an escrow in HELD state, and, for buyers,
the dispute window to be open.  Creates an OPEN dispute against the other
party and moves the escrow to DISPUTED, in one transaction. -/
def raiseDispute (db : DB) (now : ℤ) (caller : UserId) : DB × Option Err :=
  let isBuyer := db.auction.highestBidder = some caller
  let isSeller := db.auction.vendor = caller
  if ¬isBuyer ∧ ¬isSeller then (db, some .notParty)
  else
    match db.escrow with
    | none => (db, some .noActiveEscrow)
    | some e =>
      if e.status ≠ .HELD then (db, some .noActiveEscrow)
      else if isBuyer ∧ buyerWindowClosed db now = true then
        (db, some .windowClosed)
      else
        let against :=
          if isBuyer then db.auction.vendor
          else (db.auction.highestBidder.getD 0)
        ({ db with
            disputes := db.disputes ++ [⟨caller, against, .OPEN⟩],
            escrow := some { e with status := .DISPUTED } }, none)

/-- `partialResolution(auctionId, refundRatio, session)`: splits
`tokenAmount` into `refundRatio` to the buyer and `1 - refundRatio` to the
vendor, appending two SUCCESS ledger entries.  The escrow record itself is
not written at all (no status change appears in the source). -/
def partialResolution (db : DB) (refundRatio : ℚ) : DB × Option Err :=
  match db.escrow with
  | none => (db, some .dbError)  -- null escrow: reading .tokenAmount throws
  | some e =>
    let refundAmount := e.tokenAmount * refundRatio
    let vendorAmount := e.tokenAmount * (1 - refundRatio)
    let us1 := creditBalance (creditBalance db.users e.buyer refundAmount)
                 e.vendor vendorAmount
    ({ db with
        users := us1,
        ledger := db.ledger ++
          [⟨e.buyer, .DISPUTE_PARTIAL_REFUND, refundAmount, .SUCCESS⟩,
           ⟨e.vendor, .DISPUTE_PARTIAL_PAYOUT, vendorAmount, .SUCCESS⟩] },
     none)

/-! ## Operation sequences over the bid engine (for the temporal claim) -/

/-- A user-visible bidding operation with its wall-clock time. -/
inductive AOp where
  | place (t : ℤ) (bidder : UserId) (amount : ℚ)
  | retract (t : ℤ) (caller : UserId) (bidId : Nat)
deriving DecidableEq, Repr

/-- Run a sequence of bid placements/retractions; collect, in chronological
order, the amounts of the *accepted* bids (those on which `placeBid`
succeeds). -/
def runOps (db : DB) : List AOp → DB × List ℚ
  | [] => (db, [])
  | .place t u amt :: rest =>
    let r := placeBid db t u amt false
    match r.2 with
    | none =>
      let k := runOps r.1 rest
      (k.1, amt :: k.2)
    | some _ => runOps r.1 rest
  | .retract t u i :: rest => runOps (retractBid db t u i).1 rest

/-- Number of ledger entries of a given type and status. -/
def countTx (l : List Tx) (ty : TxType) (st : TxStatus) : Nat :=
  (l.filter (fun t => decide (t.txType = ty) && decide (t.status = st))).length

/-- Whether an operation is a bid placement. -/
def AOp.isPlace : AOp → Bool
  | .place _ _ _ => true
  | .retract _ _ _ => false

/-! ## Concrete states used by the claim theorems -/

/-- An active auction past `endTime` with two active bidders (winner: user 2
at 112) and `winningBidAmount` already persisted, about to be closed. -/
def dbClose : DB :=
  { users := fun _ => ⟨1000, 0⟩
    auction := ⟨0, some 2, 100, 112, 2, 10000, true, false, 112, false, false, none⟩
    bids := [⟨1, 106, 1000, .active, false, false, 0, false⟩,
             ⟨2, 112, 7000, .active, false, false, 0, false⟩]
    escrow := none
    confirmation := none
    disputes := []
    ledger := [] }

/-- A fresh active auction at price 100 with a bidder holding 500 tokens. -/
def dbPlace : DB :=
  { users := fun _ => ⟨500, 0⟩
    auction := ⟨0, none, 100, 100, 0, 1000000, true, false, 0, false, false, none⟩
    bids := []
    escrow := none
    confirmation := none
    disputes := []
    ledger := [] }

/-- An active auction where user 1 holds the single (highest) bid of 50
with 50 tokens escrowed. -/
def dbRetract : DB :=
  { users := fun _ => ⟨950, 50⟩
    auction := ⟨0, some 1, 40, 50, 1, 1000000, true, false, 0, false, false, none⟩
    bids := [⟨1, 50, 0, .active, false, false, 0, false⟩]
    escrow := none
    confirmation := none
    disputes := []
    ledger := [] }

/-- A closed auction whose 200-token escrow is DISPUTED. -/
def dbDisputed : DB :=
  { users := fun _ => ⟨100, 0⟩
    auction := ⟨0, some 1, 100, 200, 1, 1000, false, false, 200, false, false, some 1000⟩
    bids := []
    escrow := some ⟨1, 0, 200, .DISPUTED⟩
    confirmation := none
    disputes := []
    ledger := [] }

/-- A closed auction: 1000-token HELD escrow, shipped confirmation, and the
close-time PENDING platform-fee ledger entry of 100. -/
def dbDeliver : DB :=
  { users := fun _ => ⟨0, 0⟩
    auction := ⟨0, some 1, 500, 1000, 1, 1000, false, false, 1000, false, false, some 1000⟩
    bids := []
    escrow := some ⟨1, 0, 1000, .HELD⟩
    confirmation := some ⟨0, 1, .SHIPPED, none⟩
    disputes := []
    ledger := [⟨0, .PLATFORM_FEE, 100, .PENDING⟩] }

/-- A delivered auction (`deliveredAt = 0`) whose 200-token escrow is still
HELD, the state in which the buyer dispute window of `raiseDispute` governs. -/
def dbWindow : DB :=
  { users := fun _ => ⟨0, 0⟩
    auction := ⟨0, some 1, 100, 200, 1, 1000, false, false, 200, false, false, some 1000⟩
    bids := []
    escrow := some ⟨1, 0, 200, .HELD⟩
    confirmation := some ⟨0, 1, .DELIVERED, some 0⟩
    disputes := []
    ledger := [] }

/-- An auction whose highest-amount bid (100, by user 1) is retracted while
an active non-retracted bid of 50 (user 2) remains; `highestBidder` was
recomputed to user 2 by the retraction. -/
def dbRetractedTop : DB :=
  { users := fun _ => ⟨1000, 0⟩
    auction := ⟨0, some 2, 40, 50, 2, 1000000, true, false, 0, false, false, none⟩
    bids := [⟨1, 100, 0, .active, false, true, 10, false⟩,
             ⟨2, 50, 1000, .active, false, false, 0, false⟩]
    escrow := none
    confirmation := none
    disputes := []
    ledger := [] }

/-- A fresh auction at price 100 with three funded bidders, for operation
sequences. -/
def dbMono : DB :=
  { users := fun _ => ⟨1000, 0⟩
    auction := ⟨0, none, 100, 100, 0, 1000000, true, false, 0, false, false, none⟩
    bids := []
    escrow := none
    confirmation := none
    disputes := []
    ledger := [] }

/-- Bid 106 accepted, bid 200 accepted, bid 200 retracted (price falls back
to 106), bid 112 accepted. -/
def opsMono : List AOp :=
  [.place 1000 1 106, .place 7000 2 200, .retract 8000 2 1, .place 14000 3 112]

/-- A closed auction won by user 1 at 112, vendor 0, with a HELD escrow, a
pending confirmation and the close-time ledger entries, as left by a
successful close. -/
def dbReceipt : DB :=
  { users := fun _ => ⟨1000, 0⟩
    auction := ⟨0, some 1, 100, 112, 1, 1000, false, false, 112, false, false, some 2000⟩
    bids := [⟨1, 112, 500, .active, true, false, 0, false⟩]
    escrow := some ⟨1, 0, 112, .HELD⟩
    confirmation := some ⟨0, 1, .PENDING_SHIPMENT, none⟩
    disputes := []
    ledger := [⟨0, .PLATFORM_FEE, mkRat 56 5, .PENDING⟩] }

/-! ## Claim theorems -/

/-- Claim C1 (code_bug): the claim states that when any step of
`closeAuction`'s settlement unit of work fails, nothing persists — no escrow
record, no refund, no delivery confirmation, no ledger entry — and the
auction stays `isActive = true`.  In the code, `setWinningBid`,
`createEscrow` and `createConfirmation` ignore the session they are handed,
so when the platform-fee step fails and the transaction aborts, the
winning-bid marking, the escrow record, its `ESCROW_HOLD` ledger entry and
the delivery confirmation all persist (only the staged refunds, fee entry
and `isActive` flip are rolled back). -/
theorem closeAuction_abort_persists_direct_writes :
    (closeAuction dbClose 20000 false (some .feeStep)).2 = some .dbError ∧
    (closeAuction dbClose 20000 false (some .feeStep)).1.escrow
      = some ⟨2, 0, 112, .HELD⟩ ∧
    (closeAuction dbClose 20000 false (some .feeStep)).1.ledger
      = [⟨2, .ESCROW_HOLD, 112, .SUCCESS⟩] ∧
    (closeAuction dbClose 20000 false (some .feeStep)).1.confirmation
      = some ⟨0, 2, .PENDING_SHIPMENT, none⟩ ∧
    ((closeAuction dbClose 20000 false (some .feeStep)).1.bids.map
        Bid.isWinningBid) = [false, true] ∧
    (closeAuction dbClose 20000 false (some .feeStep)).1.auction.isActive
      = true ∧
    (closeAuction dbClose 20000 false (some .feeStep)).1.users 1
      = dbClose.users 1 := by
  decide

/-- Claim C2 (code_bug): the claim states that any failure of `placeBid`
after the balance debit rolls the debit back, leaving balance and
`escrowedBalance` unchanged and no Bid record.  In the code the `catch`
block only deletes the Bid (`Bid.findByIdAndDelete`); the debit made by
`escrowBidTokens` (a direct `user.save()` outside the transaction) persists:
here a bidder with balance 500 places 106, finalization fails, no bid
remains, yet the balance is left at 394 with 106 still escrowed. -/
theorem placeBid_failure_keeps_debit :
    (placeBid dbPlace 1000 1 106 true).2 = some .dbError ∧
    (placeBid dbPlace 1000 1 106 true).1.bids = [] ∧
    (placeBid dbPlace 1000 1 106 true).1.users 1 = ⟨394, 106⟩ ∧
    dbPlace.users 1 = ⟨500, 0⟩ := by
  decide

/-- Claim C4 (code_bug): the claim (and the spec) say `releaseToVendor` and
`refundToBuyer` succeed on a HELD **or DISPUTED** escrow.  The code looks up
`Escrow.findOne({auction, status: 'HELD'})`, so on a DISPUTED escrow both
operations throw (`No active escrow found`) and change nothing — even though
`resolveDispute` invokes them precisely on escrows that `raiseDispute` has
moved to DISPUTED, so the dispute-resolution release/refund path can never
succeed. -/
theorem release_refund_fail_on_disputed :
    (releaseToVendor dbDisputed).2 = some .noActiveEscrow ∧
    (releaseToVendor dbDisputed).1 = dbDisputed ∧
    (refundToBuyer dbDisputed).2 = some .noActiveEscrow ∧
    (refundToBuyer dbDisputed).1 = dbDisputed := by
  exact ⟨by decide, rfl, by decide, rfl⟩

/-- Claim C7 (code_bug): the claim states `setWinningBid` marks the single
highest *active, non-retracted* bid as winning and never selects a retracted
bid.  The code's lookup `Bid.findOne({auction}).sort({amount: -1})` has no
status or retraction filter: here the retracted bid of 100 is chosen over
the active bid of 50 (contradicting `retractBid`'s own recomputation, which
had made user 2 the `highestBidder`).  The repeated-call idempotence the
claim states does hold on this input. -/
theorem setWinningBid_picks_retracted_bid :
    (setWinningBid dbRetractedTop).1.bids
      = [⟨1, 100, 0, .active, true, true, 10, false⟩,
         ⟨2, 50, 1000, .active, false, false, 0, false⟩] ∧
    ((setWinningBid dbRetractedTop).1.bids.map
        (fun b => b.isWinningBid && b.isRetracted)) = [true, false] ∧
    (setWinningBid (setWinningBid dbRetractedTop).1).1.bids
      = (setWinningBid dbRetractedTop).1.bids := by
  decide

/-- Claim C3, counterexample: the claim states a successful `retractBid`
decreases the bidder's `escrowedBalance` by exactly `amount` (the escrow
hold is dissolved).  Retracting the 50-token bid of a user holding
`escrowedBalance = 50` leaves the escrowed balance at 50 instead of 0: the
source never writes `escrowedBalance` on retraction. -/
theorem retractBid_escrow_not_dissolved :
    (retractBid dbRetract 5000 1 0).2 = none ∧
    ((retractBid dbRetract 5000 1 0).1.users 1).escrowedBalance = 50 ∧
    (dbRetract.users 1).escrowedBalance - 50 = 0 ∧
    ((retractBid dbRetract 5000 1 0).1.users 1).escrowedBalance ≠ 0 := by
  decide

/-- Claim C3, amended: a successful `retractBid` by the bidder before
`endTime` credits the bidder's *available* balance by exactly
`amount - penalty` with `penalty = max(amount × 10%, 0.5)`, but leaves the
bidder's `escrowedBalance` unchanged — the escrow hold is not dissolved. -/
theorem retractBid_refund_effect (db : DB) (now : ℤ) (caller : UserId)
    (i : Nat) (bid : Bid) (hget : db.bids.get? i = some bid)
    (hb : bid.bidder = caller) (ht : ¬ now > db.auction.endTime) :
    (retractBid db now caller i).2 = none ∧
    ((retractBid db now caller i).1.users caller).balance
      = (db.users caller).balance
        + (bid.amount - jsMax (bid.amount * (1 / 10)) (1 / 2)) ∧
    ((retractBid db now caller i).1.users caller).escrowedBalance
      = (db.users caller).escrowedBalance := by
  unfold retractBid
  rw [hget]
  simp [hb, ht, creditBalance, updUser]

/-- Witness for `retractBid_refund_effect` at the concrete retraction state:
the 50-token bid is refunded 45 (penalty 5) and the escrowed balance stays
at 50. -/
theorem retractBid_refund_effect_witness :
    (retractBid dbRetract 5000 1 0).2 = none ∧
    ((retractBid dbRetract 5000 1 0).1.users 1).balance
      = (dbRetract.users 1).balance
        + ((50 : ℚ) - jsMax ((50 : ℚ) * (1 / 10)) (1 / 2)) ∧
    ((retractBid dbRetract 5000 1 0).1.users 1).escrowedBalance
      = (dbRetract.users 1).escrowedBalance := by
  exact retractBid_refund_effect dbRetract 5000 1 0
    ⟨1, 50, 0, .active, false, false, 0, false⟩ (by decide) (by decide)
    (by decide)

/-- Unfolding of `countTx` over a cons cell. -/
theorem countTx_cons (t : Tx) (l : List Tx) (ty : TxType) (st : TxStatus) :
    countTx (t :: l) ty st
      = countTx l ty st + (if t.txType = ty ∧ t.status = st then 1 else 0) := by
  by_cases h : t.txType = ty ∧ t.status = st
  · simp [countTx, List.filter_cons, h.1, h.2, h]
  · simp only [countTx, List.filter_cons]
    rw [if_neg h]
    have hd : (decide (t.txType = ty) && decide (t.status = st)) = false := by
      rcases Decidable.not_and_iff_or_not.mp h with h1 | h1 <;> simp [h1]
    simp [hd]

/-- `countTx` is additive over append. -/
theorem countTx_append (l1 l2 : List Tx) (ty : TxType) (st : TxStatus) :
    countTx (l1 ++ l2) ty st = countTx l1 ty st + countTx l2 ty st := by
  simp [countTx, List.filter_append]

/-- Flipping the first pending fee moves exactly one entry from
PENDING to SUCCESS among the platform-fee entries. -/
theorem flipFirstPendingFee_fee_counts (l : List Tx)
    (h : 0 < countTx l .PLATFORM_FEE .PENDING) :
    countTx (flipFirstPendingFee l) .PLATFORM_FEE .SUCCESS
      = countTx l .PLATFORM_FEE .SUCCESS + 1 ∧
    countTx (flipFirstPendingFee l) .PLATFORM_FEE .PENDING
      = countTx l .PLATFORM_FEE .PENDING - 1 := by
  induction l with
  | nil => simp [countTx] at h
  | cons t rest ih =>
    by_cases hc : t.txType = .PLATFORM_FEE ∧ t.status = .PENDING
    · rw [flipFirstPendingFee, if_pos hc]
      rw [countTx_cons, countTx_cons, countTx_cons, countTx_cons]
      simp [hc.1, hc.2]
    · rw [flipFirstPendingFee, if_neg hc]
      have h' : 0 < countTx rest .PLATFORM_FEE .PENDING := by
        rw [countTx_cons, if_neg hc] at h
        omega
      have hi := ih h'
      rw [countTx_cons, countTx_cons, countTx_cons, countTx_cons, hi.1, hi.2]
      constructor
      · ring
      · omega

/-- Flipping the first pending fee leaves the vendor-payout entries alone. -/
theorem flipFirstPendingFee_payout (l : List Tx) (st : TxStatus) :
    countTx (flipFirstPendingFee l) .PAYOUT_VENDOR st
      = countTx l .PAYOUT_VENDOR st := by
  induction l with
  | nil => rfl
  | cons t rest ih =>
    by_cases hc : t.txType = .PLATFORM_FEE ∧ t.status = .PENDING
    · rw [flipFirstPendingFee, if_pos hc]
      rw [countTx_cons, countTx_cons]
      have hty : ({ t with status := TxStatus.SUCCESS } : Tx).txType
          = t.txType := rfl
      simp [hty, hc.1]
    · rw [flipFirstPendingFee, if_neg hc]
      rw [countTx_cons, countTx_cons, ih]

/-- Claim C5, counterexample: on the 1000-token HELD escrow with the
close-time PENDING fee entry of 100, a successful buyer `confirmDelivery`
credits the vendor 900 and releases the escrow, but the final ledger holds
**two** `PLATFORM_FEE` SUCCESS entries of 100 — the close-time entry flipped
to SUCCESS *and* a second one freshly created by `releaseEscrow` — where the
claim requires exactly one. -/
theorem confirmDelivery_duplicates_fee :
    (confirmDelivery dbDeliver 50 1).2 = none ∧
    ((confirmDelivery dbDeliver 50 1).1.users 0).balance = 900 ∧
    (confirmDelivery dbDeliver 50 1).1.escrow = some ⟨1, 0, 1000, .RELEASED⟩ ∧
    (confirmDelivery dbDeliver 50 1).1.ledger
      = [⟨0, .PLATFORM_FEE, 100, .SUCCESS⟩,
         ⟨0, .PAYOUT_VENDOR, 900, .SUCCESS⟩,
         ⟨0, .PLATFORM_FEE, 100, .SUCCESS⟩] ∧
    countTx (confirmDelivery dbDeliver 50 1).1.ledger
      .PLATFORM_FEE .SUCCESS = 2 ∧
    (2 : Nat) ≠ 1 := by
  decide

/-- Claim C5, amended: a successful buyer `confirmDelivery` on a HELD escrow
of `tokenAmount` N credits the vendor exactly 0.9 × N, sets the escrow to
RELEASED, marks the confirmation DELIVERED, and flips the PENDING
platform-fee entry to SUCCESS — but the resulting ledger carries one
`PAYOUT_VENDOR` SUCCESS entry and **two** `PLATFORM_FEE` SUCCESS entries
(the fee is double-recorded: the flipped close-time entry plus a new entry
written by `releaseEscrow`). -/
theorem confirmDelivery_release_effect (db : DB) (now : ℤ) (caller : UserId)
    (e : Escrow) (c : DeliveryConfirmation)
    (he : db.escrow = some e) (hes : e.status = .HELD)
    (hc : db.confirmation = some c) (hcb : c.buyer = caller)
    (hcs : c.status = .SHIPPED ∨ c.status = .PENDING_DELIVERY)
    (hfp : countTx db.ledger .PLATFORM_FEE .PENDING = 1)
    (hfs : countTx db.ledger .PLATFORM_FEE .SUCCESS = 0)
    (hpv : countTx db.ledger .PAYOUT_VENDOR .SUCCESS = 0) :
    (confirmDelivery db now caller).2 = none ∧
    ((confirmDelivery db now caller).1.users e.vendor).balance
      = (db.users e.vendor).balance + e.tokenAmount * (9 / 10) ∧
    (confirmDelivery db now caller).1.escrow
      = some { e with status := .RELEASED } ∧
    (confirmDelivery db now caller).1.confirmation
      = some { c with status := .DELIVERED, deliveredAt := some now } ∧
    countTx (confirmDelivery db now caller).1.ledger
      .PLATFORM_FEE .SUCCESS = 2 ∧
    countTx (confirmDelivery db now caller).1.ledger
      .PLATFORM_FEE .PENDING = 0 ∧
    countTx (confirmDelivery db now caller).1.ledger
      .PAYOUT_VENDOR .SUCCESS = 1 := by
  have hcond : c.buyer = caller ∧
      (c.status = .SHIPPED ∨ c.status = .PENDING_DELIVERY) := ⟨hcb, hcs⟩
  have key :
      (confirmDelivery db now caller).2 = none ∧
      ((confirmDelivery db now caller).1.users e.vendor).balance
        = (db.users e.vendor).balance + e.tokenAmount * (9 / 10) ∧
      (confirmDelivery db now caller).1.escrow
        = some { e with status := .RELEASED } ∧
      (confirmDelivery db now caller).1.confirmation
        = some { c with status := .DELIVERED, deliveredAt := some now } ∧
      (confirmDelivery db now caller).1.ledger
        = flipFirstPendingFee (db.ledger ++
            [⟨e.vendor, .PAYOUT_VENDOR,
              e.tokenAmount - e.tokenAmount * feeRate, .SUCCESS⟩,
             ⟨e.vendor, .PLATFORM_FEE, e.tokenAmount * feeRate, .SUCCESS⟩]) := by
    unfold confirmDelivery
    rw [hc]
    dsimp only
    rw [if_pos hcond]
    unfold releaseEscrow
    dsimp only
    rw [he]
    dsimp only
    rw [if_pos hes]
    refine ⟨rfl, ?_, rfl, rfl, rfl⟩
    simp [creditBalance, updUser, feeRate]
    ring
  obtain ⟨k1, k2, k3, k4, k5⟩ := key
  have hLp : countTx (db.ledger ++
      [⟨e.vendor, .PAYOUT_VENDOR,
        e.tokenAmount - e.tokenAmount * feeRate, .SUCCESS⟩,
       ⟨e.vendor, .PLATFORM_FEE, e.tokenAmount * feeRate, .SUCCESS⟩])
        .PLATFORM_FEE .PENDING = 1 := by
    rw [countTx_append, hfp]
    simp [countTx]
  have hLs : countTx (db.ledger ++
      [⟨e.vendor, .PAYOUT_VENDOR,
        e.tokenAmount - e.tokenAmount * feeRate, .SUCCESS⟩,
       ⟨e.vendor, .PLATFORM_FEE, e.tokenAmount * feeRate, .SUCCESS⟩])
        .PLATFORM_FEE .SUCCESS = 1 := by
    rw [countTx_append, hfs]
    simp [countTx]
  have hLv : countTx (db.ledger ++
      [⟨e.vendor, .PAYOUT_VENDOR,
        e.tokenAmount - e.tokenAmount * feeRate, .SUCCESS⟩,
       ⟨e.vendor, .PLATFORM_FEE, e.tokenAmount * feeRate, .SUCCESS⟩])
        .PAYOUT_VENDOR .SUCCESS = 1 := by
    rw [countTx_append, hpv]
    simp [countTx]
  have hflip := flipFirstPendingFee_fee_counts _ (by rw [hLp]; omega)
  refine ⟨k1, k2, k3, k4, ?_, ?_, ?_⟩
  · rw [k5, hflip.1, hLs]
  · rw [k5, hflip.2, hLp]
  · rw [k5, flipFirstPendingFee_payout, hLv]

/-- Witness for `confirmDelivery_release_effect` at the concrete delivery
state: escrow of 1000, vendor credited 900, two fee-SUCCESS entries. -/
theorem confirmDelivery_release_effect_witness :
    (confirmDelivery dbDeliver 50 1).2 = none ∧
    ((confirmDelivery dbDeliver 50 1).1.users 0).balance
      = (dbDeliver.users 0).balance + (1000 : ℚ) * (9 / 10) ∧
    (confirmDelivery dbDeliver 50 1).1.escrow
      = some ⟨1, 0, 1000, .RELEASED⟩ ∧
    countTx (confirmDelivery dbDeliver 50 1).1.ledger
      .PLATFORM_FEE .SUCCESS = 2 ∧
    countTx (confirmDelivery dbDeliver 50 1).1.ledger
      .PAYOUT_VENDOR .SUCCESS = 1 := by
  have h := confirmDelivery_release_effect dbDeliver 50 1
    ⟨1, 0, 1000, .HELD⟩ ⟨0, 1, .SHIPPED, none⟩
    (by decide) (by decide) (by decide) (by decide) (Or.inl (by decide))
    (by decide) (by decide) (by decide)
  exact ⟨h.1, h.2.1, h.2.2.1, h.2.2.2.2.1, h.2.2.2.2.2.2⟩

/-- Claim C6 (confirmed): for a delivered auction whose escrow is still
active (HELD), a buyer dispute raised within 7 days of `deliveredAt`
succeeds — an OPEN dispute against the vendor is created and the escrow
moves to DISPUTED — while one raised strictly after the 7-day deadline
fails with the window-closed error and changes nothing; with no recorded
delivery the buyer dispute is unrestricted by the window. -/
theorem raiseDispute_dispute_window (db : DB) (now : ℤ) (caller : UserId)
    (d : ℤ) (e : Escrow) (c : DeliveryConfirmation)
    (hb : db.auction.highestBidder = some caller)
    (he : db.escrow = some e) (hes : e.status = .HELD)
    (hc : db.confirmation = some c) :
    (c.deliveredAt = some d → ¬ now > d + disputeWindowMs →
      (raiseDispute db now caller).2 = none ∧
      (raiseDispute db now caller).1.escrow
        = some { e with status := .DISPUTED } ∧
      (raiseDispute db now caller).1.disputes
        = db.disputes ++ [⟨caller, db.auction.vendor, .OPEN⟩]) ∧
    (c.deliveredAt = some d → now > d + disputeWindowMs →
      (raiseDispute db now caller).2 = some .windowClosed ∧
      (raiseDispute db now caller).1 = db) ∧
    (c.deliveredAt = none →
      (raiseDispute db now caller).2 = none ∧
      (raiseDispute db now caller).1.escrow
        = some { e with status := .DISPUTED } ∧
      (raiseDispute db now caller).1.disputes
        = db.disputes ++ [⟨caller, db.auction.vendor, .OPEN⟩]) := by
  refine ⟨fun hd hn => ?_, fun hd hn => ?_, fun hd => ?_⟩
  · have hw : buyerWindowClosed db now = false := by
      simp [buyerWindowClosed, hc, hd, hn]
    simp [raiseDispute, hb, he, hes, hw]
  · have hw : buyerWindowClosed db now = true := by
      simp [buyerWindowClosed, hc, hd, hn]
    simp [raiseDispute, hb, he, hes, hw]
  · have hw : buyerWindowClosed db now = false := by
      simp [buyerWindowClosed, hc, hd]
    simp [raiseDispute, hb, he, hes, hw]

/-- Witness for `raiseDispute_dispute_window`: on the delivered auction with
`deliveredAt = 0` and a HELD escrow, the buyer's dispute on day 6 succeeds
(escrow DISPUTED) and the dispute on day 8 fails with the window-closed
error, leaving the state untouched. -/
theorem raiseDispute_dispute_window_witness :
    (raiseDispute dbWindow 518400000 1).2 = none ∧
    (raiseDispute dbWindow 518400000 1).1.escrow
      = some ⟨1, 0, 200, .DISPUTED⟩ ∧
    (raiseDispute dbWindow 691200000 1).2 = some .windowClosed ∧
    (raiseDispute dbWindow 691200000 1).1 = dbWindow := by
  have h6 := (raiseDispute_dispute_window dbWindow 518400000 1 0
    ⟨1, 0, 200, .HELD⟩ ⟨0, 1, .DELIVERED, some 0⟩
    (by decide) (by decide) (by decide) (by decide)).1
    (by decide) (by decide)
  have h8 := (raiseDispute_dispute_window dbWindow 691200000 1 0
    ⟨1, 0, 200, .HELD⟩ ⟨0, 1, .DELIVERED, some 0⟩
    (by decide) (by decide) (by decide) (by decide)).2.1
    (by decide) (by decide)
  exact ⟨h6.1, h6.2.1, h8.1, h8.2⟩

/-- Claim C8, counterexample: the claim states `partialResolution` moves the
escrow to a terminal RESOLVED status admitting no further release or
refund.  On the 200-token DISPUTED escrow with ratio 1/2, both parties are
credited 100 and the two SUCCESS entries are written, but the escrow record
is completely untouched — still DISPUTED; no RESOLVED state is ever written
by the source (it is not even a value of its escrow status space). -/
theorem partialResolution_leaves_escrow :
    (partialResolution dbDisputed (1 / 2)).2 = none ∧
    ((partialResolution dbDisputed (1 / 2)).1.users 1).balance = 200 ∧
    ((partialResolution dbDisputed (1 / 2)).1.users 0).balance = 200 ∧
    (partialResolution dbDisputed (1 / 2)).1.ledger
      = [⟨1, .DISPUTE_PARTIAL_REFUND, 100, .SUCCESS⟩,
         ⟨0, .DISPUTE_PARTIAL_PAYOUT, 100, .SUCCESS⟩] ∧
    (partialResolution dbDisputed (1 / 2)).1.escrow
      = some ⟨1, 0, 200, .DISPUTED⟩ ∧
    (partialResolution dbDisputed (1 / 2)).1.escrow = dbDisputed.escrow := by
  decide

/-- Claim C8, amended: for every escrow of `tokenAmount` N and ratio r in
[0,1], `partialResolution` credits the buyer exactly r × N and the vendor
exactly (1-r) × N, writes two SUCCESS ledger entries whose amounts sum to N
— but leaves the escrow record (in particular its status) unchanged: no
RESOLVED or other terminal transition occurs. -/
theorem partialResolution_split (db : DB) (r : ℚ) (e : Escrow)
    (he : db.escrow = some e) (hbv : e.buyer ≠ e.vendor)
    (h0 : 0 ≤ r) (h1 : r ≤ 1) :
    (partialResolution db r).2 = none ∧
    ((partialResolution db r).1.users e.buyer).balance
      = (db.users e.buyer).balance + e.tokenAmount * r ∧
    ((partialResolution db r).1.users e.vendor).balance
      = (db.users e.vendor).balance + e.tokenAmount * (1 - r) ∧
    e.tokenAmount * r + e.tokenAmount * (1 - r) = e.tokenAmount ∧
    (partialResolution db r).1.ledger
      = db.ledger ++
        [⟨e.buyer, .DISPUTE_PARTIAL_REFUND, e.tokenAmount * r, .SUCCESS⟩,
         ⟨e.vendor, .DISPUTE_PARTIAL_PAYOUT, e.tokenAmount * (1 - r), .SUCCESS⟩] ∧
    (partialResolution db r).1.escrow = db.escrow := by
  unfold partialResolution
  rw [he]
  dsimp only
  refine ⟨rfl, ?_, ?_, by ring, rfl, rfl⟩
  · simp [creditBalance, updUser, hbv]
  · simp [creditBalance, updUser, Ne.symm hbv]

/-- Witness for `partialResolution_split` at the concrete 200-token DISPUTED
escrow with ratio 1/2. -/
theorem partialResolution_split_witness :
    (partialResolution dbDisputed (1 / 2)).2 = none ∧
    ((partialResolution dbDisputed (1 / 2)).1.users 1).balance
      = (dbDisputed.users 1).balance + (200 : ℚ) * (1 / 2) ∧
    ((partialResolution dbDisputed (1 / 2)).1.users 0).balance
      = (dbDisputed.users 0).balance + (200 : ℚ) * (1 - 1 / 2) ∧
    (partialResolution dbDisputed (1 / 2)).1.escrow = dbDisputed.escrow := by
  have h := partialResolution_split dbDisputed (1 / 2) ⟨1, 0, 200, .DISPUTED⟩
    (by decide) (by decide) (by decide) (by decide)
  exact ⟨h.1, h.2.1, h.2.2.1, h.2.2.2.2.2⟩

/-- Claim C10 (confirmed): `confirmReceipt`, callable by the auction's
highest bidder, on every invocation credits the vendor's available balance
by 0.9 × `winningBidAmount` while leaving the escrow, the delivery
confirmation, the ledger and every other account (the buyer's in
particular) untouched; nothing guards against repetition — a second call
credits the vendor again. -/
theorem confirmReceipt_unguarded_payout (db : DB) (caller : UserId)
    (hb : db.auction.highestBidder = some caller)
    (hv : db.auction.vendor ≠ caller) :
    (confirmReceipt db caller).2 = none ∧
    ((confirmReceipt db caller).1.users db.auction.vendor).balance
      = (db.users db.auction.vendor).balance
        + db.auction.winningBidAmount * (9 / 10) ∧
    ((confirmReceipt db caller).1.users db.auction.vendor).escrowedBalance
      = (db.users db.auction.vendor).escrowedBalance ∧
    (∀ u, u ≠ db.auction.vendor →
      (confirmReceipt db caller).1.users u = db.users u) ∧
    (confirmReceipt db caller).1.escrow = db.escrow ∧
    (confirmReceipt db caller).1.confirmation = db.confirmation ∧
    (confirmReceipt db caller).1.ledger = db.ledger ∧
    (confirmReceipt (confirmReceipt db caller).1 caller).2 = none ∧
    ((confirmReceipt (confirmReceipt db caller).1 caller).1.users
        db.auction.vendor).balance
      = (db.users db.auction.vendor).balance
        + db.auction.winningBidAmount * (9 / 10)
        + db.auction.winningBidAmount * (9 / 10) := by
  unfold confirmReceipt
  rw [hb]
  dsimp only
  have hcc : ¬ caller ≠ caller := by simp
  rw [if_neg hcc]
  refine ⟨rfl, ?_, ?_, ?_, rfl, rfl, rfl, ?_, ?_⟩
  · simp [creditBalance, updUser]
  · simp [creditBalance, updUser]
  · intro u hu
    simp [creditBalance, updUser, hu]
  · rw [hb]
    dsimp only
    rw [if_neg hcc]
  · rw [hb]
    dsimp only
    rw [if_neg hcc]
    simp [creditBalance, updUser]

/-- Witness for `confirmReceipt_unguarded_payout` on the closed auction won
by user 1 at 112: vendor 0 is credited 100.8 per call, twice after two
calls; escrow, confirmation and ledger unchanged (checked at user 1). -/
theorem confirmReceipt_unguarded_payout_witness :
    (confirmReceipt dbReceipt 1).2 = none ∧
    ((confirmReceipt dbReceipt 1).1.users 0).balance
      = (dbReceipt.users 0).balance + (112 : ℚ) * (9 / 10) ∧
    (confirmReceipt dbReceipt 1).1.escrow = dbReceipt.escrow ∧
    (confirmReceipt dbReceipt 1).1.ledger = dbReceipt.ledger ∧
    (confirmReceipt dbReceipt 1).1.users 1 = dbReceipt.users 1 ∧
    ((confirmReceipt (confirmReceipt dbReceipt 1).1 1).1.users 0).balance
      = (dbReceipt.users 0).balance
        + (112 : ℚ) * (9 / 10) + (112 : ℚ) * (9 / 10) := by
  have h := confirmReceipt_unguarded_payout dbReceipt 1 (by decide) (by decide)
  exact ⟨h.1, h.2.1, h.2.2.2.2.1, h.2.2.2.2.2.2.1,
    h.2.2.2.1 1 (by decide), h.2.2.2.2.2.2.2.2⟩

/-- Claim C9, counterexample: the claim states that over any sequence of bid
placements *and retractions* the accepted bid amounts are strictly
increasing.  Running 106 accepted, 200 accepted, retraction of the 200 bid
(price recomputed down to 106), then 112 accepted gives the accepted
sequence [106, 200, 112]: the later accepted 112 is below the earlier
accepted 200. -/
theorem acceptedBids_not_monotonic :
    (runOps dbMono opsMono).2 = [106, 200, 112] ∧
    (runOps dbMono opsMono).2.get? 1 = some 200 ∧
    (runOps dbMono opsMono).2.get? 2 = some 112 ∧
    ((112 : ℚ) ≤ 200) := by
  decide

/-- Invariant of a run: every accepted amount clears the previous price by
the 5% minimum increment, each accepted amount becoming the new price. -/
def accFrom (p : ℚ) : List ℚ → Prop
  | [] => True
  | a :: rest => p * (1 + minBidIncrease) ≤ a ∧ accFrom a rest

/-- A `placeBid` invocation without injected finalization failure either
rejects (leaving the state unchanged) or accepts: the amount clears the
current price by the minimum increment and becomes the new current price. -/
theorem placeBid_accept_or_reject (db : DB) (t : ℤ) (u : UserId) (amt : ℚ) :
    ((∃ e, (placeBid db t u amt false).2 = some e) ∧
      (placeBid db t u amt false).1 = db) ∨
    ((placeBid db t u amt false).2 = none ∧
     (placeBid db t u amt false).1.auction.currentPrice = amt ∧
     db.auction.currentPrice * (1 + minBidIncrease) ≤ amt) := by
  unfold placeBid
  split
  · exact .inl ⟨⟨_, rfl⟩, rfl⟩
  next h1 =>
    split
    next h2 => exact .inl ⟨⟨_, rfl⟩, rfl⟩
    next h2 =>
      split
      · exact .inl ⟨⟨_, rfl⟩, rfl⟩
      · split
        · exact .inl ⟨⟨_, rfl⟩, rfl⟩
        · refine .inr ⟨rfl, ?_, not_lt.mp h2⟩
          simp [finalizeAuction]

/-- In a run of placements only, the accepted amounts satisfy `accFrom` of
the starting price. -/
theorem runOps_accFrom (ops : List AOp) (db : DB)
    (hall : ∀ op ∈ ops, op.isPlace = true) :
    accFrom db.auction.currentPrice (runOps db ops).2 := by
  induction ops generalizing db with
  | nil => trivial
  | cons op rest ih =>
    have hrest : ∀ o ∈ rest, o.isPlace = true :=
      fun o ho => hall o (List.mem_cons_of_mem _ ho)
    match op with
    | .retract t u i =>
      exact absurd (hall _ (List.mem_cons_self _ _)) (by simp [AOp.isPlace])
    | .place t u amt =>
      rcases placeBid_accept_or_reject db t u amt with
        ⟨⟨err, herr⟩, h1⟩ | ⟨h2, hcp, hge⟩
      · unfold runOps
        dsimp only
        rw [herr]
        dsimp only
        rw [h1]
        exact ih db hrest
      · unfold runOps
        dsimp only
        rw [h2]
        dsimp only
        refine ⟨hge, ?_⟩
        have hnext := ih (placeBid db t u amt false).1 hrest
        rwa [hcp] at hnext

/-- From a positive starting price, `accFrom` yields the strictly-increasing
5%-increment chain. -/
theorem accFrom_chain (l : List ℚ) : ∀ p : ℚ, 0 < p → accFrom p l →
    List.Chain' (fun a b => a * (1 + minBidIncrease) ≤ b ∧ a < b) l := by
  induction l with
  | nil => intro p hp h; simp
  | cons a rest ih =>
    intro p hp h
    obtain ⟨hpa, hrest⟩ := h
    have hfac : (0 : ℚ) < 1 + minBidIncrease := by norm_num [minBidIncrease]
    have ha : 0 < a := lt_of_lt_of_le (mul_pos hp hfac) hpa
    cases rest with
    | nil => simp
    | cons b rest2 =>
      have hab := hrest.1
      have hlt : a < b := by
        have h1 : a < a * (1 + minBidIncrease) := by
          have h2 : a * 1 < a * (1 + minBidIncrease) := by
            apply mul_lt_mul_of_pos_left _ ha
            norm_num [minBidIncrease]
          simpa using h2
        exact lt_of_lt_of_le h1 hab
      exact List.chain'_cons.mpr ⟨⟨hab, hlt⟩, ih a ha hrest⟩

/-- Claim C9, amended: over any sequence of *placements only* (no
retractions) from a positive current price, the chronological sequence of
accepted bid amounts is strictly increasing, each accepted amount at least
the previous one times (1 + 5%).  (A retraction of the current highest bid
lowers `currentPrice`, after which a later accepted bid may be below an
earlier accepted one, as the counterexample shows.) -/
theorem acceptedBids_monotonic_without_retractions (db : DB)
    (ops : List AOp) (hall : ∀ op ∈ ops, op.isPlace = true)
    (hp : 0 < db.auction.currentPrice) :
    List.Chain' (fun a b => a * (1 + minBidIncrease) ≤ b ∧ a < b)
      (runOps db ops).2 :=
  accFrom_chain _ _ hp (runOps_accFrom ops db hall)

/-- Witness for `acceptedBids_monotonic_without_retractions`: the pure
placement run accepting 106 then 200 yields a strictly increasing accepted
sequence. -/
theorem acceptedBids_monotonic_without_retractions_witness :
    List.Chain' (fun a b => a * (1 + minBidIncrease) ≤ b ∧ a < b)
      (runOps dbMono [AOp.place 1000 1 106, AOp.place 7000 2 200]).2 := by
  exact acceptedBids_monotonic_without_retractions dbMono _
    (by decide) (by decide)

end Backdoor
